import Mathlib

/-!
Verification development for the "Makerspaces an Bayerischen Schulen"
Streamlit application (`src/app.py`).

The app's core logic is shallowly embedded here:
* JSON values stored in the makerspace db file (`makerspaces.json`) are
  modelled by the inductive `JVal`; a parsed JSON object is an association
  list `List (String × JVal)` (keys are unique after `json.loads`, and
  insertion order is preserved, matching Python dicts).
* `load_or_init_db` (app.py lines 105-125) is the migration/backfill pass.
* `school_type_from_name` (lines 47-62) classifies a school by name; every
  regular expression in its pattern table is a plain alternation of literal
  substrings, so `re.search` is modelled as "some alternative occurs as a
  contiguous substring of the lower-cased name".
* `build_map` (lines 186-233) is modelled structurally: the folium map
  artifact becomes a record of the data the code puts into it, and the
  JavaScript `icon_create` cluster callback becomes `icon_create_color`.
* The session map cache (lines 237-251) becomes an explicit `Session`
  state threaded through `getOrBuild`; the md5 fingerprint is modelled by
  the hashed data itself (the ordered name list and the store file mtime),
  i.e. the hash is abstracted as injective.
* Runtime failures (NameError, KeyError, the uncaught ValueError from
  `json.loads`) are modelled with `Except PyErr`.
-/

/-- Python runtime errors relevant to the modelled code paths. -/
inductive PyErr where
  | nameError (n : String)
  | keyError (k : String)
  | valueError
  deriving DecidableEq, Repr

/-- A JSON value as produced by `json.loads` (numbers restricted to
integers; no claim depends on numeric values). A JSON object is an
association list in insertion order with unique keys. -/
inductive JVal where
  | jnull
  | jbool (b : Bool)
  | jnum (n : Int)
  | jstr (s : String)
  | jarr (xs : List JVal)
  | jobj (fields : List (String × JVal))

/-- Key membership in a Python-dict-like association list. -/
def hasKey (db : List (String × JVal)) (k : String) : Bool :=
  db.any (fun p => p.1 == k)

/-- First-match lookup (Python dict lookup on unique keys). -/
def lookupJ : List (String × JVal) → String → Option JVal
  | [], _ => none
  | (k, v) :: rest, n => if k == n then some v else lookupJ rest n

/-- One entry of the migration pass of `load_or_init_db` (lines 111-118):
a list-shaped value is replaced by its first element (or `{}` if empty)
and marks the db changed; a dict is kept; anything else is coerced to `{}`
WITHOUT marking the db changed (the `else` branch of the Python code does
not set `changed`). Returns (new value, changed-flag contribution). -/
def migrateVal : JVal → JVal × Bool
  | .jarr [] => (.jobj [], true)
  | .jarr (x :: _) => (x, true)
  | .jobj m => (.jobj m, false)
  | .jnull => (.jobj [], false)
  | .jbool _ => (.jobj [], false)
  | .jnum _ => (.jobj [], false)
  | .jstr _ => (.jobj [], false)

/-- The backfill loop of `load_or_init_db` (lines 119-122): for every
school name not yet a key, insert an empty record and mark changed. -/
def backfill : List (String × JVal) × Bool → List String → List (String × JVal) × Bool
  | acc, [] => acc
  | acc, n :: ns =>
      backfill (if hasKey acc.1 n then acc else (acc.1 ++ [(n, .jobj [])], true)) ns

/-- `load_or_init_db` (lines 105-125) applied to already-parsed file
contents `raw`: the migration loop over `raw.items()` (each iteration
appends exactly one entry, so the loop is a map; `changed` is whether any
entry tripped a `changed = True` branch), followed by the backfill loop.
Returns the db together with the `changed` flag that decides whether the
file is rewritten. -/
def load_or_init_db (raw : List (String × JVal)) (names : List String) :
    List (String × JVal) × Bool :=
  let db := raw.map (fun kv => (kv.1, (migrateVal kv.2).1))
  let changed := raw.any (fun kv => (migrateVal kv.2).2)
  backfill (db, changed) names

/-- Contents of the makerspace store file: either text that `json.loads`
parses to an object, or text it rejects. -/
inductive StoreContents where
  | wellFormed (raw : List (String × JVal))
  | malformed

/-- `load_or_init_db` including its file I/O head (lines 106-109): a
missing file is treated as the empty mapping; a present file is parsed by
`json.loads`, whose parse error on malformed text is NOT caught and
propagates out of the function. -/
def load_or_init_db_io (file : Option StoreContents) (names : List String) :
    Except PyErr (List (String × JVal) × Bool) :=
  match file with
  | none => .ok (load_or_init_db [] names)
  | some (.wellFormed raw) => .ok (load_or_init_db raw names)
  | some .malformed => .error .valueError

/-- Does the pattern `p` match at the very start of `s`? -/
def matchHere : List Char → List Char → Bool
  | [], _ => true
  | _ :: _, [] => false
  | a :: ps, b :: ss => a == b && matchHere ps ss

/-- Does the pattern `p` occur as a contiguous substring of `s`? -/
def occursIn (p : List Char) : List Char → Bool
  | [] => p.isEmpty
  | c :: rest => matchHere p (c :: rest) || occursIn p rest

/-- The ordered pattern table of `school_type_from_name` (lines 48-57),
with each regex alternation split into its literal alternatives. -/
def patterns : List (String × List String) :=
  [("Gymnasium", ["gymnasium"]),
   ("Grundschule", ["grundschule"]),
   ("Realschule", ["realschule"]),
   ("Mittelschule", ["mittelschule", "hauptschule"]),
   ("Berufsschule", ["berufsschule"]),
   ("FOS/BOS", ["fachoberschule", "berufsoberschule", "fos", "bos"]),
   ("Wirtschaftsschule", ["wirtschaftsschule"]),
   ("Förderschule", ["förderschule", "sonderpädagogisch"])]

/-- The fixed category enumeration, the possible outputs of
`school_type_from_name`. -/
def categories : List String :=
  ["Gymnasium", "Grundschule", "Realschule", "Mittelschule", "Berufsschule",
   "FOS/BOS", "Wirtschaftsschule", "Förderschule", "Sonstige"]

/-- `school_type_from_name` (lines 47-62): lower-case the name, return the
first category whose pattern matches (`re.search` on an alternation of
literals = some alternative is a substring), default `"Sonstige"`. -/
def school_type_from_name (name : String) : String :=
  let low := name.toList.map Char.toLower
  match patterns.find? (fun tp => tp.2.any (fun pat => occursIn pat.toList low)) with
  | some tp => tp.1
  | none => "Sonstige"

/-- One row of `schools_df`: name, coordinates and school type
(`type` column, derived by `school_type_from_name`). Coordinates are
modelled as rationals; no claim depends on their values. -/
structure Loc where
  name : String
  lat : ℚ
  lon : ℚ
  type : String
  deriving DecidableEq, Repr

/-- A makerspace record as written by the save handler (lines 163-169).
Missing JSON fields read through `.get(..., default)` are identified with
their defaults, so the empty record has five empty fields. -/
structure Rec where
  space_name : String
  tools : List String
  contact : String
  email : String
  website : String
  deriving DecidableEq, Repr

/-- The empty record `{}`. -/
def emptyRec : Rec :=
  { space_name := "", tools := [], contact := "", email := "", website := "" }

/-- `spaces.get(name, {})` (line 204). -/
def lookupRec : List (String × Rec) → String → Rec
  | [], _ => emptyRec
  | (k, v) :: rest, n => if k == n then v else lookupRec rest n

/-- Key membership in the record db. -/
def hasRecKey (db : List (String × Rec)) (k : String) : Bool :=
  db.any (fun p => p.1 == k)

/-- Python dict assignment `db[school] = rec`: replace the value at an
existing key in place, else append the new key at the end. -/
def setEntry : List (String × Rec) → String → Rec → List (String × Rec)
  | [], k, v => [(k, v)]
  | (k0, v0) :: rest, k, v =>
      if k0 == k then (k0, v) :: rest else (k0, v0) :: setEntry rest k v

/-- The record built by the save handler (lines 163-169): all five fields
trimmed, the tools string comma-split with blank tokens dropped. -/
def mkRecord (space_name tools_str contact email website : String) : Rec :=
  { space_name := space_name.trim
    tools := ((tools_str.splitOn ",").map String.trim).filter (fun t => t ≠ "")
    contact := contact.trim
    email := email.trim
    website := website.trim }

/-- `filtered_df` (line 147): the rows whose type is among the selected
school types, or the empty frame when no type is selected. -/
def filtered_df (schools_df : List Loc) (sel_types : List String) : List Loc :=
  if sel_types.isEmpty then []
  else schools_df.filter (fun r => sel_types.contains r.type)

/-- The marker built for one school row in `build_map` (lines 203-229),
keeping the structured content: popup details are composed only when the
record has a makerspace. -/
structure Details where
  contact : String
  email : String
  website : String
  tools : List String
  space_name : String
  deriving DecidableEq, Repr

structure Marker where
  location : ℚ × ℚ
  radius : ℕ
  color : String
  fill : Bool
  fillColor : String
  hasSpace : Bool
  popupName : String
  popupType : String
  popupDetails : Option Details
  deriving DecidableEq, Repr

/-- The loop body of `build_map` (lines 203-229) for one row `r`. -/
def buildMarker (spaces : List (String × Rec)) (r : Loc) : Marker :=
  let e := lookupRec spaces r.name
  let has_space := e.space_name != ""
  let color := if has_space then "green" else "red"
  { location := (r.lat, r.lon)
    radius := 6
    color := color
    fill := true
    fillColor := color
    hasSpace := has_space
    popupName := r.name
    popupType := r.type
    popupDetails :=
      if has_space then
        some { contact := e.contact, email := e.email, website := e.website
               tools := e.tools, space_name := e.space_name }
      else none }

/-- The `icon_create` JavaScript callback (lines 190-196): a cluster
bubble is green when some contained marker has `options.hasSpace`,
else red. -/
def icon_create_color (childMarkers : List Marker) : String :=
  if childMarkers.any (fun m => m.hasSpace) then "green" else "red"

/-- The folium map artifact of `build_map`, modelled structurally. -/
structure FoliumMap where
  location : ℚ × ℚ
  zoom_start : ℕ
  showCoverageOnHover : Bool
  chunkedLoading : Bool
  markers : List Marker
  fullscreen : Bool
  locate_control : Bool
  deriving DecidableEq, Repr

/-- `build_map` (lines 186-233). -/
def build_map (df : List Loc) (spaces : List (String × Rec)) : FoliumMap :=
  { location := (48.97, 11.5)
    zoom_start := 7
    showCoverageOnHover := false
    chunkedLoading := true
    markers := df.map (buildMarker spaces)
    fullscreen := true
    locate_control := true }

/-- The map cache fingerprint of `current_map_key` (lines 237-240),
with the md5 digest of the name column abstracted as the name list itself
(the hash is modelled injective). -/
structure MapKey where
  filter_hash : List String
  file_mtime : ℕ
  deriving DecidableEq, Repr

/-- The makerspace store file together with its modification time. -/
def store_mtime : Option (List (String × Rec) × ℕ) → ℕ
  | none => 0
  | some f => f.2

/-- `current_map_key` (lines 237-240): fingerprint of the filtered name
column and the store file mtime (0 when the file is absent). -/
def current_map_key (df : List Loc) (file : Option (List (String × Rec) × ℕ)) :
    MapKey :=
  { filter_hash := df.map (fun r => r.name), file_mtime := store_mtime file }

/-- The session state entries `map_key` and `map_obj`; either may be
absent independently (`pop("map_key", None)` removes only `map_key`). -/
structure Session where
  map_key : Option MapKey
  map_obj : Option FoliumMap
  deriving DecidableEq, Repr

/-- The cache block (lines 246-249) followed by reading
`st.session_state["map_obj"]` (line 250): rebuild and store the map when
the fingerprint differs from the cached one, then hand out the cached
artifact; a cache hit with no stored `map_obj` raises KeyError. -/
def getOrBuild (df : List Loc) (db : List (String × Rec))
    (file : Option (List (String × Rec) × ℕ)) (s : Session) :
    Except PyErr (FoliumMap × Session) :=
  let key := current_map_key df file
  if s.map_key = some key then
    match s.map_obj with
    | some a => .ok (a, s)
    | none => .error (.keyError "map_obj")
  else
    let a := build_map df db
    .ok (a, { map_key := some key, map_obj := some a })

/-- The save handler (lines 162-172): replace the entry for the selected
school, rewrite the store file with the whole db, and pop `map_key` from
the session. Returns (db, file contents, session). -/
def saveHandler (db : List (String × Rec)) (school : String) (rec : Rec)
    (s : Session) : List (String × Rec) × List (String × Rec) × Session :=
  let db2 := setEntry db school rec
  (db2, db2, { s with map_key := none })

/-- The delete handler (lines 176-180): only when the supplied password
equals the admin password, set the entry to `{}`, rewrite the file and pop
`map_key`; otherwise nothing happens. `file` is the store file contents
(the deserialized mapping it holds). Returns (db, file contents, session). -/
def deleteHandler (db file : List (String × Rec)) (s : Session)
    (school pwd admin : String) : List (String × Rec) × List (String × Rec) × Session :=
  if pwd == admin then
    let db2 := setEntry db school emptyRec
    (db2, db2, { s with map_key := none })
  else (db, file, s)

/-- The names bound at module level in `app.py` (imports, configuration
constants, function defs, and the top-level UI assignments). Python
resolves a bare name against the local/global scopes and then the
builtins; none of the builtin names is relevant to the map-display line,
so resolution of the name used there is checked against this list. -/
def module_globals : List String :=
  ["Path", "json", "os", "re", "hashlib", "dedent", "pd", "requests", "st",
   "folium", "MarkerCluster", "Fullscreen", "LocateControl", "st_folium",
   "SCHOOL_CACHE", "SPACE_FILE", "OVERPASS_URL", "_env_pw", "_secret_pw",
   "ADMIN_PASSWORD", "school_type_from_name", "load_schools", "load_or_init_db",
   "schools_df", "db", "sel_types", "filtered_df", "school", "entry",
   "space_name", "tools_str", "contact", "email", "website", "col1", "col2",
   "pwd", "build_map", "current_map_key", "key"]

/-- The map section of the script (lines 242-251): with no school type
selected only an info box is shown (`.ok` without touching the cache);
otherwise the cache block runs and then line 250 evaluates the name
`st_foliumst_folium`, which raises NameError unless it is bound. An `.ok`
result models the section completing without an exception. -/
def map_section (sel_types : List String) (df : List Loc)
    (db : List (String × Rec)) (file : Option (List (String × Rec) × ℕ))
    (s : Session) : Except PyErr Session :=
  if sel_types.isEmpty then .ok s
  else
    match getOrBuild df db file s with
    | .error e => .error e
    | .ok (_, s2) =>
        if module_globals.contains "st_foliumst_folium" then .ok s2
        else .error (.nameError "st_foliumst_folium")


/-! ### Association-list and backfill lemmas -/

theorem hasKey_append (db l : List (String × JVal)) (k : String) :
    hasKey (db ++ l) k = (hasKey db k || hasKey l k) := by
  simp [hasKey, List.any_append]

theorem hasKey_map_migrate (raw : List (String × JVal)) (k : String) :
    hasKey (raw.map (fun kv => (kv.1, (migrateVal kv.2).1))) k = hasKey raw k := by
  induction raw with
  | nil => rfl
  | cons kv rest ih => simp [hasKey, List.any_cons] at ih ⊢; rw [ih]

theorem backfill_hasKey_mono :
    ∀ (names : List String) (acc : List (String × JVal) × Bool) (k : String),
      hasKey acc.1 k = true → hasKey (backfill acc names).1 k = true := by
  intro names
  induction names with
  | nil => intro acc k h; simpa [backfill] using h
  | cons n ns ih =>
      intro acc k h
      simp only [backfill]
      cases hn : hasKey acc.1 n with
      | true => simp only [hn, if_true]; exact ih acc k h
      | false =>
          simp only [hn, Bool.false_eq_true, if_false]
          refine ih _ k ?_
          show hasKey (acc.1 ++ [(n, JVal.jobj [])]) k = true
          rw [hasKey_append, h]
          rfl

theorem backfill_mem_names :
    ∀ (names : List String) (acc : List (String × JVal) × Bool) (n : String),
      n ∈ names → hasKey (backfill acc names).1 n = true := by
  intro names
  induction names with
  | nil => intro acc n h; cases h
  | cons m ns ih =>
      intro acc n h
      simp only [backfill]
      rcases List.mem_cons.mp h with rfl | hns
      · cases hm : hasKey acc.1 n with
        | true => simp only [hm, if_true]; exact backfill_hasKey_mono ns acc n hm
        | false =>
            simp only [hm, Bool.false_eq_true, if_false]
            refine backfill_hasKey_mono ns _ n ?_
            show hasKey (acc.1 ++ [(n, JVal.jobj [])]) n = true
            rw [hasKey_append]
            simp [hasKey]
      · cases hm : hasKey acc.1 m with
        | true => simp only [hm, if_true]; exact ih acc n hns
        | false =>
            simp only [hm, Bool.false_eq_true, if_false]
            exact ih _ n hns

theorem backfill_mem_mono :
    ∀ (names : List String) (acc : List (String × JVal) × Bool) (x : String × JVal),
      x ∈ acc.1 → x ∈ (backfill acc names).1 := by
  intro names
  induction names with
  | nil => intro acc x h; simpa [backfill] using h
  | cons m ns ih =>
      intro acc x h
      simp only [backfill]
      cases hm : hasKey acc.1 m with
      | true => simp only [hm, if_true]; exact ih acc x h
      | false =>
          simp only [hm, Bool.false_eq_true, if_false]
          exact ih _ x (List.mem_append_left _ h)

theorem lookupJ_eq_none_iff (db : List (String × JVal)) (n : String) :
    lookupJ db n = none ↔ hasKey db n = false := by
  induction db with
  | nil => simp [lookupJ, hasKey]
  | cons kv rest ih =>
      obtain ⟨k, v⟩ := kv
      cases h : (k == n) with
      | true => simp [lookupJ, hasKey, h]
      | false => simp [lookupJ, hasKey, h, ih]

theorem lookupJ_append_left (db l : List (String × JVal)) (n : String) (v : JVal) :
    lookupJ db n = some v → lookupJ (db ++ l) n = some v := by
  induction db with
  | nil => intro h; cases h
  | cons kv rest ih =>
      obtain ⟨k, w⟩ := kv
      intro h
      cases hk : (k == n) with
      | true => simpa [lookupJ, hk] using h
      | false =>
          simp only [lookupJ, hk, Bool.false_eq_true, if_false] at h
          simp only [List.cons_append, lookupJ, hk, Bool.false_eq_true, if_false]
          exact ih h

theorem lookupJ_append_right (db l : List (String × JVal)) (n : String) :
    hasKey db n = false → lookupJ (db ++ l) n = lookupJ l n := by
  induction db with
  | nil => intro _; rfl
  | cons kv rest ih =>
      obtain ⟨k, w⟩ := kv
      intro h
      simp only [hasKey, List.any_cons, Bool.or_eq_false_iff] at h
      simp only [List.cons_append, lookupJ, h.1, Bool.false_eq_true, if_false]
      exact ih (by simpa [hasKey] using h.2)

theorem backfill_lookupJ_preserved :
    ∀ (names : List String) (acc : List (String × JVal) × Bool) (n : String) (v : JVal),
      lookupJ acc.1 n = some v → lookupJ (backfill acc names).1 n = some v := by
  intro names
  induction names with
  | nil => intro acc n v h; simpa [backfill] using h
  | cons m ns ih =>
      intro acc n v h
      simp only [backfill]
      cases hm : hasKey acc.1 m with
      | true => simp only [hm, if_true]; exact ih acc n v h
      | false =>
          simp only [hm, Bool.false_eq_true, if_false]
          exact ih _ n v (lookupJ_append_left _ _ _ _ h)

theorem backfill_lookupJ_new :
    ∀ (names : List String) (acc : List (String × JVal) × Bool) (n : String),
      n ∈ names →
      (lookupJ acc.1 n = some (.jobj []) ∨ hasKey acc.1 n = false) →
      lookupJ (backfill acc names).1 n = some (.jobj []) := by
  intro names
  induction names with
  | nil => intro acc n h; cases h
  | cons m ns ih =>
      intro acc n hmem hinv
      simp only [backfill]
      rcases hinv with hl | hk
      · -- the key already holds the empty record: preserved by every step
        cases hm : hasKey acc.1 m with
        | true => simp only [hm, if_true]; exact backfill_lookupJ_preserved ns acc n _ hl
        | false =>
            simp only [hm, Bool.false_eq_true, if_false]
            exact backfill_lookupJ_preserved ns _ n _ (lookupJ_append_left _ _ _ _ hl)
      · -- the key is absent so far
        by_cases hnm : n = m
        · subst hnm
          simp only [hk, Bool.false_eq_true, if_false]
          refine backfill_lookupJ_preserved ns _ n _ ?_
          show lookupJ (acc.1 ++ [(n, JVal.jobj [])]) n = some (JVal.jobj [])
          rw [lookupJ_append_right _ _ _ hk]
          simp [lookupJ]
        · have hns : n ∈ ns := by
            rcases List.mem_cons.mp hmem with h | h
            · exact absurd h hnm
            · exact h
          cases hm : hasKey acc.1 m with
          | true => simp only [hm, if_true]; exact ih acc n hns (Or.inr hk)
          | false =>
              simp only [hm, Bool.false_eq_true, if_false]
              refine ih _ n hns (Or.inr ?_)
              show hasKey (acc.1 ++ [(m, JVal.jobj [])]) n = false
              rw [hasKey_append, hk]
              simp [hasKey]
              exact fun h => absurd (by simpa using h) (Ne.symm hnm)

/-- C2: after `load_or_init_db`, every known school name has a key (an
absent name is backfilled with the empty record), and every key present in
the stored file is preserved, including keys outside the known names. -/
theorem load_or_init_db_key_coverage :
    ∀ (raw : List (String × JVal)) (names : List String),
      (∀ n, n ∈ names → hasKey (load_or_init_db raw names).1 n = true) ∧
      (∀ k, hasKey raw k = true → hasKey (load_or_init_db raw names).1 k = true) ∧
      (∀ n, n ∈ names → hasKey raw n = false →
        lookupJ (load_or_init_db raw names).1 n = some (.jobj [])) := by
  intro raw names
  refine ⟨?_, ?_, ?_⟩
  · intro n hn
    exact backfill_mem_names names _ n hn
  · intro k hk
    refine backfill_hasKey_mono names _ k ?_
    show hasKey (raw.map (fun kv => (kv.1, (migrateVal kv.2).1))) k = true
    rw [hasKey_map_migrate]
    exact hk
  · intro n hn hraw
    refine backfill_lookupJ_new names _ n hn (Or.inr ?_)
    show hasKey (raw.map (fun kv => (kv.1, (migrateVal kv.2).1))) n = false
    rw [hasKey_map_migrate]
    exact hraw

theorem load_or_init_db_key_coverage_witness :
    hasKey (load_or_init_db [("other", .jobj [("space_name", .jstr "W")])] ["A"]).1 "A" = true ∧
    hasKey (load_or_init_db [("other", .jobj [("space_name", .jstr "W")])] ["A"]).1 "other" = true ∧
    lookupJ (load_or_init_db [("other", .jobj [("space_name", .jstr "W")])] ["A"]).1 "A" =
      some (.jobj []) := by
  obtain ⟨h1, h2, h3⟩ :=
    load_or_init_db_key_coverage [("other", .jobj [("space_name", .jstr "W")])] ["A"]
  exact ⟨h1 "A" (by simp), h2 "other" (by simp [hasKey]), h3 "A" (by simp) (by simp [hasKey])⟩

/-- C3: each stored entry is migrated by shape — a non-empty list becomes
exactly its first element (the rest discarded), an empty list and any
non-list non-dict value become the empty record `{}`, a dict is kept
as-is — and the migrated entry survives into the loaded mapping; with the
concrete legacy round-trips from the spec. -/
theorem migration_shapes :
    (∀ (raw : List (String × JVal)) (names : List String) (kv : String × JVal),
        kv ∈ raw → (kv.1, (migrateVal kv.2).1) ∈ (load_or_init_db raw names).1) ∧
    (∀ (x : JVal) (xs : List JVal), migrateVal (.jarr (x :: xs)) = (x, true)) ∧
    migrateVal (.jarr []) = (.jobj [], true) ∧
    (∀ m, migrateVal (.jobj m) = (.jobj m, false)) ∧
    migrateVal .jnull = (.jobj [], false) ∧
    (∀ b, migrateVal (.jbool b) = (.jobj [], false)) ∧
    (∀ n, migrateVal (.jnum n) = (.jobj [], false)) ∧
    (∀ s, migrateVal (.jstr s) = (.jobj [], false)) ∧
    lookupJ (load_or_init_db
        [("A", .jarr [.jobj [("space_name", .jstr "X")], .jobj [("space_name", .jstr "Y")]])]
        []).1 "A" = some (.jobj [("space_name", .jstr "X")]) ∧
    lookupJ (load_or_init_db [("B", .jarr [])] []).1 "B" = some (.jobj []) := by
  refine ⟨?_, fun x xs => rfl, rfl, fun m => rfl, rfl, fun b => rfl, fun n => rfl,
    fun s => rfl, rfl, rfl⟩
  intro raw names kv hkv
  refine backfill_mem_mono names _ _ ?_
  show (kv.1, (migrateVal kv.2).1) ∈ raw.map (fun kv => (kv.1, (migrateVal kv.2).1))
  exact List.mem_map_of_mem _ hkv

theorem migration_shapes_witness :
    ("A", JVal.jobj [("space_name", JVal.jstr "X")]) ∈
      (load_or_init_db
        [("A", .jarr [.jobj [("space_name", .jstr "X")], .jobj [("space_name", .jstr "Y")]])]
        []).1 :=
  migration_shapes.1 _ []
    ("A", .jarr [.jobj [("space_name", .jstr "X")], .jobj [("space_name", .jstr "Y")]])
    (by simp)

/-- C5 counterexample: a stored list whose first element is a string.
The first load keeps the string as the entry; persisting that mapping and
loading again coerces the string to `{}`, so the second mapping differs
from the first. -/
theorem load_reload_changes_mapping :
    (load_or_init_db (load_or_init_db [("k", .jarr [.jstr "s"])] []).1 []).1
      ≠ (load_or_init_db [("k", .jarr [.jstr "s"])] []).1 := by
  intro h
  have h1 : (load_or_init_db [("k", JVal.jarr [JVal.jstr "s"])] []).1
      = [("k", JVal.jstr "s")] := rfl
  rw [h1] at h
  have h2 : (load_or_init_db [("k", JVal.jstr "s")] []).1 = [("k", JVal.jobj [])] := rfl
  rw [h2] at h
  injection h with hh _
  injection hh with _ hv
  exact JVal.noConfusion hv

/-- All values in the mapping are dict-shaped. -/
def objShaped (db : List (String × JVal)) : Prop :=
  ∀ kv ∈ db, ∃ m, kv.2 = JVal.jobj m

theorem objShaped_phase1 (raw : List (String × JVal))
    (h : ∀ (k : String) (x : JVal) (xs : List JVal),
        (k, JVal.jarr (x :: xs)) ∈ raw → ∃ m, x = JVal.jobj m) :
    objShaped (raw.map fun kv => (kv.1, (migrateVal kv.2).1)) := by
  intro kv hkv
  rw [List.mem_map] at hkv
  obtain ⟨⟨k, v⟩, hmem, rfl⟩ := hkv
  cases v with
  | jarr xs =>
      cases xs with
      | nil => exact ⟨[], rfl⟩
      | cons x rest => simpa [migrateVal] using h k x rest hmem
  | jobj m => exact ⟨m, rfl⟩
  | jnull => exact ⟨[], rfl⟩
  | jbool b => exact ⟨[], rfl⟩
  | jnum n => exact ⟨[], rfl⟩
  | jstr s => exact ⟨[], rfl⟩

theorem objShaped_backfill :
    ∀ (names : List String) (acc : List (String × JVal) × Bool),
      objShaped acc.1 → objShaped (backfill acc names).1 := by
  intro names
  induction names with
  | nil => intro acc h; simpa [backfill] using h
  | cons m ns ih =>
      intro acc h
      simp only [backfill]
      cases hm : hasKey acc.1 m with
      | true => simp only [hm, if_true]; exact ih acc h
      | false =>
          simp only [hm, Bool.false_eq_true, if_false]
          refine ih _ ?_
          intro kv hkv
          rcases List.mem_append.mp hkv with hl | hr
          · exact h kv hl
          · simp at hr
            subst hr
            exact ⟨[], rfl⟩

theorem phase1_id_of_objShaped :
    ∀ db : List (String × JVal), objShaped db →
      (db.map fun kv => (kv.1, (migrateVal kv.2).1)) = db ∧
      (db.any fun kv => (migrateVal kv.2).2) = false := by
  intro db
  induction db with
  | nil => intro _; exact ⟨rfl, rfl⟩
  | cons kv rest ih =>
      intro h
      obtain ⟨m, hv⟩ := h kv (List.mem_cons_self _ _)
      obtain ⟨hmap, hany⟩ := ih (fun x hx => h x (List.mem_cons_of_mem _ hx))
      have hhead : (kv.1, (migrateVal kv.2).1) = kv := by
        rw [hv]
        show (kv.1, JVal.jobj m) = kv
        rw [← hv]
      constructor
      · rw [List.map_cons, hmap, hhead]
      · rw [List.any_cons, hany, hv]
        rfl

theorem backfill_noop :
    ∀ (names : List String) (db : List (String × JVal)) (c : Bool),
      (∀ n ∈ names, hasKey db n = true) → backfill (db, c) names = (db, c) := by
  intro names
  induction names with
  | nil => intro db c _; rfl
  | cons m ns ih =>
      intro db c h
      simp only [backfill, h m (List.mem_cons_self _ _), if_true]
      exact ih db c (fun n hn => h n (List.mem_cons_of_mem _ hn))

theorem load_noop_of_objShaped (db : List (String × JVal)) (names : List String)
    (hobj : objShaped db) (hk : ∀ n ∈ names, hasKey db n = true) :
    load_or_init_db db names = (db, false) := by
  obtain ⟨hmap, hany⟩ := phase1_id_of_objShaped db hobj
  simp only [load_or_init_db, hmap, hany]
  exact backfill_noop names db false hk

/-- C5 amended: provided every list-shaped entry of the stored content has
a dict-shaped first element, loading, persisting the loaded mapping and
loading again returns the same mapping unchanged and reports no repair
(`changed = false`), so nothing is re-persisted. -/
theorem load_persist_reload_id :
    ∀ (raw : List (String × JVal)) (names : List String),
      (∀ (k : String) (x : JVal) (xs : List JVal),
          (k, JVal.jarr (x :: xs)) ∈ raw → ∃ m, x = JVal.jobj m) →
      load_or_init_db (load_or_init_db raw names).1 names =
        ((load_or_init_db raw names).1, false) := by
  intro raw names h
  refine load_noop_of_objShaped _ names ?_ ?_
  · exact objShaped_backfill names _ (objShaped_phase1 raw h)
  · intro n hn
    exact backfill_mem_names names _ n hn

theorem load_persist_reload_id_witness :
    load_or_init_db (load_or_init_db [("a", .jarr [.jobj [("space_name", .jstr "X")]])] ["b"]).1
        ["b"] =
      ((load_or_init_db [("a", .jarr [.jobj [("space_name", .jstr "X")]])] ["b"]).1, false) := by
  refine load_persist_reload_id _ ["b"] ?_
  intro k x xs hmem
  rw [List.mem_singleton] at hmem
  have hv : JVal.jarr (x :: xs) = JVal.jarr [JVal.jobj [("space_name", JVal.jstr "X")]] :=
    congrArg Prod.snd hmem
  injection hv with hl
  injection hl with hx hxs
  exact ⟨[("space_name", JVal.jstr "X")], hx⟩

/-- C9 counterexample: a present but unparseable store file makes
`load_or_init_db` raise (the `json.loads` error is not caught), instead of
being treated as an empty mapping. -/
theorem json_parse_error_propagates :
    load_or_init_db_io (some .malformed) ["Schule A"] = .error .valueError := rfl

/-- C9 amended: a MISSING store file is treated as the empty mapping and
the load returns, without error, a store holding the default empty record
for every known location; a corrupt file instead raises. -/
theorem load_io_missing_self_heals :
    ∀ names : List String,
      load_or_init_db_io none names = .ok (load_or_init_db [] names) ∧
      (∀ n, n ∈ names → lookupJ (load_or_init_db [] names).1 n = some (.jobj [])) := by
  intro names
  refine ⟨rfl, ?_⟩
  intro n hn
  exact backfill_lookupJ_new names ([], false) n hn (Or.inr rfl)

theorem load_io_missing_self_heals_witness :
    load_or_init_db_io none ["A"] = .ok (load_or_init_db [] ["A"]) ∧
    lookupJ (load_or_init_db [] ["A"]).1 "A" = some (.jobj []) :=
  ⟨(load_io_missing_self_heals ["A"]).1,
   (load_io_missing_self_heals ["A"]).2 "A" (by simp)⟩

theorem find?_fst_mem_or (l : List (String × List String))
    (p : String × List String → Bool) :
    (match l.find? p with | some tp => tp.1 | none => "Sonstige")
      ∈ l.map Prod.fst ++ ["Sonstige"] := by
  induction l with
  | nil => simp [List.find?]
  | cons a t ih =>
      cases hp : p a with
      | true => rw [List.find?_cons_of_pos _ hp]; simp
      | false =>
          rw [List.find?_cons_of_neg _ (by simp [hp])]
          simp only [List.map_cons, List.cons_append]
          exact List.mem_cons_of_mem _ ih

/-- C4 counterexample: `school_type_from_name "Grund- und Mittelschule
Dorf"` returns `"Mittelschule"` even though `"Mittelschule"` does NOT
precede `"Grundschule"` in the pattern priority order — the reason is not
precedence but that the substring `"grundschule"` never occurs in the
hyphenated compound `"grund- und mittelschule dorf"`. -/
theorem classify_precedence_counterexample :
    school_type_from_name "Grund- und Mittelschule Dorf" = "Mittelschule" ∧
    ¬ ((patterns.map Prod.fst).findIdx (fun c => c == "Mittelschule") <
       (patterns.map Prod.fst).findIdx (fun c => c == "Grundschule")) :=
  ⟨by decide, by decide⟩

/-- C4 amended: `school_type_from_name` is total and deterministic, always
returning one of the nine fixed categories by first-match priority over
the lower-cased name with default `"Sonstige"`;
`"Städtisches Gymnasium München"` classifies as Gymnasium and `"Rathaus"`
as Sonstige; but `"Grund- und Mittelschule Dorf"` classifies as
Mittelschule although Grundschule precedes Mittelschule in the priority
order, because the pattern `"grundschule"` does not occur in the
hyphenated name. -/
theorem classify_total_and_examples :
    (∀ name : String, school_type_from_name name ∈ categories) ∧
    school_type_from_name "Städtisches Gymnasium München" = "Gymnasium" ∧
    school_type_from_name "Rathaus" = "Sonstige" ∧
    school_type_from_name "Grund- und Mittelschule Dorf" = "Mittelschule" ∧
    occursIn "grundschule".toList ("Grund- und Mittelschule Dorf".toList.map Char.toLower)
      = false ∧
    (patterns.map Prod.fst).findIdx (fun c => c == "Grundschule") <
      (patterns.map Prod.fst).findIdx (fun c => c == "Mittelschule") := by
  refine ⟨?_, by decide, by decide, by decide, by decide, by decide⟩
  intro name
  have h := find?_fst_mem_or patterns
    (fun tp => tp.2.any (fun pat => occursIn pat.toList (name.toList.map Char.toLower)))
  have e : categories = patterns.map Prod.fst ++ ["Sonstige"] := rfl
  rw [e]
  exact h

/-- C7: with no school type selected the filtered frame is empty whatever
the catalog holds; with `["Gymnasium"]` selected it is exactly the rows of
type Gymnasium; in general a row is kept iff it is in the catalog and its
type is among the selected ones. -/
theorem filtered_df_selection :
    (∀ schools_df : List Loc, filtered_df schools_df [] = []) ∧
    (∀ schools_df : List Loc,
        filtered_df schools_df ["Gymnasium"] =
          schools_df.filter (fun r => r.type == "Gymnasium")) ∧
    (∀ (schools_df : List Loc) (sel_types : List String) (r : Loc),
        r ∈ filtered_df schools_df sel_types ↔ r ∈ schools_df ∧ r.type ∈ sel_types) := by
  refine ⟨fun s => rfl, ?_, ?_⟩
  · intro s
    show s.filter (fun r => ["Gymnasium"].contains r.type)
        = s.filter (fun r => r.type == "Gymnasium")
    refine List.filter_congr ?_
    intro a _
    cases h : a.type == "Gymnasium" with
    | true => simp [List.contains, List.elem, h]
    | false => simp [List.contains, List.elem, h]
  · intro s sel r
    cases sel with
    | nil => simp [filtered_df]
    | cons a t =>
        show r ∈ s.filter (fun x => (a :: t).contains x.type) ↔ _
        rw [List.mem_filter]
        simp

/-- C6: a school marker is green exactly when the record stored under the
school's name has a non-empty `space_name` (red otherwise, including when
the key is missing — lookup then yields the empty record), the presence
flag attached as marker metadata equals that condition, and a cluster
bubble is green exactly when some contained marker carries the presence
flag, red exactly when none does. -/
theorem build_map_presence_coloring :
    (∀ (df : List Loc) (spaces : List (String × Rec)),
        (build_map df spaces).markers = df.map (buildMarker spaces)) ∧
    (∀ (spaces : List (String × Rec)) (r : Loc),
        ((buildMarker spaces r).color = "green" ↔
          (lookupRec spaces r.name).space_name ≠ "") ∧
        ((buildMarker spaces r).color = "red" ↔
          (lookupRec spaces r.name).space_name = "") ∧
        (buildMarker spaces r).hasSpace = ((lookupRec spaces r.name).space_name != "")) ∧
    (∀ ms : List Marker,
        (icon_create_color ms = "green" ↔ ∃ m ∈ ms, m.hasSpace = true) ∧
        (icon_create_color ms = "red" ↔ ∀ m ∈ ms, m.hasSpace = false)) := by
  refine ⟨fun df spaces => rfl, ?_, ?_⟩
  · intro spaces r
    cases hb : ((lookupRec spaces r.name).space_name != "") with
    | false =>
        have hs : (lookupRec spaces r.name).space_name = "" := by simpa using hb
        have hc : (buildMarker spaces r).color = "red" := by
          simp [buildMarker, hb]
        have hh : (buildMarker spaces r).hasSpace = false := by
          simp [buildMarker, hb]
        refine ⟨?_, ?_, ?_⟩
        · rw [hc]
          constructor
          · intro h; exact absurd h (by decide)
          · intro h; exact absurd hs h
        · rw [hc]
          exact ⟨fun _ => hs, fun _ => rfl⟩
        · exact hh
    | true =>
        have hs : (lookupRec spaces r.name).space_name ≠ "" := by simpa using hb
        have hc : (buildMarker spaces r).color = "green" := by
          simp [buildMarker, hb]
        have hh : (buildMarker spaces r).hasSpace = true := by
          simp [buildMarker, hb]
        refine ⟨?_, ?_, ?_⟩
        · rw [hc]
          exact ⟨fun _ => hs, fun _ => rfl⟩
        · rw [hc]
          constructor
          · intro h; exact absurd h (by decide)
          · intro h; exact absurd h hs
        · exact hh
  · intro ms
    cases ha : ms.any (fun m => m.hasSpace) with
    | true =>
        have hg : icon_create_color ms = "green" := by
          simp [icon_create_color, ha]
        rw [hg]
        constructor
        · exact ⟨fun _ => by simpa [List.any_eq_true] using ha, fun _ => rfl⟩
        · constructor
          · intro h; exact absurd h (by decide)
          · intro h
            rcases List.any_eq_true.mp ha with ⟨m, hm, hsp⟩
            rw [h m hm] at hsp
            exact Bool.noConfusion hsp
    | false =>
        have hr : icon_create_color ms = "red" := by
          simp [icon_create_color, ha]
        rw [hr]
        constructor
        · constructor
          · intro h; exact absurd h (by decide)
          · intro h
            rcases h with ⟨m, hm, hsp⟩
            have := List.any_eq_false.mp ha m hm
            rw [hsp] at this
            exact absurd rfl this
        · exact ⟨fun _ m hm => by
            have := List.any_eq_false.mp ha m hm
            simpa using this, fun _ => rfl⟩

theorem setEntry_lookup_self :
    ∀ (db : List (String × Rec)) (school : String) (v : Rec),
      lookupRec (setEntry db school v) school = v := by
  intro db school v
  induction db with
  | nil => simp [setEntry, lookupRec]
  | cons kv rest ih =>
      obtain ⟨k0, v0⟩ := kv
      cases hk : (k0 == school) with
      | true =>
          have : k0 = school := by simpa using hk
          simp [setEntry, lookupRec, hk]
      | false => simp [setEntry, lookupRec, hk, ih]

theorem setEntry_hasKey_mono :
    ∀ (db : List (String × Rec)) (school : String) (v : Rec) (k : String),
      hasRecKey db k = true → hasRecKey (setEntry db school v) k = true := by
  intro db school v k
  induction db with
  | nil => intro h; cases h
  | cons kv rest ih =>
      obtain ⟨k0, v0⟩ := kv
      intro h
      rw [hasRecKey, List.any_cons, Bool.or_eq_true] at h
      cases hk : (k0 == school) with
      | true =>
          rw [setEntry, if_pos hk, hasRecKey, List.any_cons, Bool.or_eq_true]
          rcases h with h0 | hrest
          · exact Or.inl h0
          · exact Or.inr hrest
      | false =>
          rw [setEntry, if_neg (by simp [hk]), hasRecKey, List.any_cons, Bool.or_eq_true]
          rcases h with h0 | hrest
          · exact Or.inl h0
          · exact Or.inr (ih (by rwa [hasRecKey]))

/-- C8: with a wrong password the delete handler leaves the in-memory
mapping, the store file and the session untouched and raises nothing;
with the right password the selected school's entry is replaced by the
empty record (the whole mapping is persisted), and no key is ever removed
from the mapping. -/
theorem deleteHandler_gating :
    ∀ (db file : List (String × Rec)) (s : Session) (school pwd admin : String),
      (pwd ≠ admin → deleteHandler db file s school pwd admin = (db, file, s)) ∧
      (pwd = admin →
        deleteHandler db file s school pwd admin =
          (setEntry db school emptyRec, setEntry db school emptyRec,
            { s with map_key := none }) ∧
        lookupRec (setEntry db school emptyRec) school = emptyRec ∧
        (∀ k, hasRecKey db k = true →
          hasRecKey (setEntry db school emptyRec) k = true)) := by
  intro db file s school pwd admin
  constructor
  · intro h
    simp [deleteHandler, h]
  · intro h
    subst h
    exact ⟨by simp [deleteHandler], setEntry_lookup_self db school emptyRec,
      fun k hk => setEntry_hasKey_mono db school emptyRec k hk⟩

theorem deleteHandler_gating_witness :
    deleteHandler [("A", mkRecord "W" "" "" "" "")] [("A", mkRecord "W" "" "" "" "")]
        ⟨some ⟨["A"], 5⟩, none⟩ "A" "wrong" "changeme"
      = ([("A", mkRecord "W" "" "" "" "")], [("A", mkRecord "W" "" "" "" "")],
          ⟨some ⟨["A"], 5⟩, none⟩) ∧
    lookupRec (setEntry [("A", mkRecord "W" "" "" "" "")] "A" emptyRec) "A" = emptyRec := by
  constructor
  · exact (deleteHandler_gating _ _ _ "A" "wrong" "changeme").1 (by decide)
  · exact ((deleteHandler_gating [("A", mkRecord "W" "" "" "" "")]
      [("A", mkRecord "W" "" "" "" "")] ⟨some ⟨["A"], 5⟩, none⟩ "A" "changeme"
      "changeme").2 rfl).2.1

/-- C1: if the session fingerprint equals the fingerprint of the current
filtered names and store mtime, `getOrBuild` returns the cached artifact
and leaves the session unchanged; if it differs, a fresh artifact is built
from the current subset and store and both artifact and fingerprint
replace the cached ones; and after a save — which rewrites the store file
and pops the fingerprint — the next `getOrBuild` always builds anew. -/
theorem getOrBuild_cache_coherence :
    ∀ (df : List Loc) (db : List (String × Rec))
      (file : Option (List (String × Rec) × ℕ)) (s : Session) (a : FoliumMap),
      (s.map_key = some (current_map_key df file) → s.map_obj = some a →
        getOrBuild df db file s = .ok (a, s)) ∧
      (s.map_key ≠ some (current_map_key df file) →
        getOrBuild df db file s =
          .ok (build_map df db,
            { map_key := some (current_map_key df file),
              map_obj := some (build_map df db) })) ∧
      (∀ (school : String) (rec : Rec),
        (saveHandler db school rec s).2.2.map_key = none ∧
        (saveHandler db school rec s).2.1 = setEntry db school rec ∧
        (∀ (df2 : List Loc) (db2 : List (String × Rec))
            (file2 : Option (List (String × Rec) × ℕ)),
          getOrBuild df2 db2 file2 (saveHandler db school rec s).2.2 =
            .ok (build_map df2 db2,
              { map_key := some (current_map_key df2 file2),
                map_obj := some (build_map df2 db2) }))) := by
  intro df db file s a
  refine ⟨?_, ?_, ?_⟩
  · intro hk ho
    simp [getOrBuild, hk, ho]
  · intro hk
    simp [getOrBuild, hk]
  · intro school rec
    refine ⟨rfl, rfl, ?_⟩
    intro df2 db2 file2
    simp [getOrBuild, saveHandler]

theorem getOrBuild_cache_coherence_witness :
    getOrBuild [] [] none ⟨some ⟨[], 0⟩, some (build_map [] [])⟩
      = .ok (build_map [] [], ⟨some ⟨[], 0⟩, some (build_map [] [])⟩) ∧
    getOrBuild [] [] none ⟨none, none⟩
      = .ok (build_map [] [], ⟨some ⟨[], 0⟩, some (build_map [] [])⟩) := by
  constructor
  · exact (getOrBuild_cache_coherence [] [] none
      ⟨some ⟨[], 0⟩, some (build_map [] [])⟩ (build_map [] [])).1 rfl rfl
  · exact (getOrBuild_cache_coherence [] [] none ⟨none, none⟩ (build_map [] [])).2.1
      (by simp)

/-- C10: the name `st_foliumst_folium` evaluated on the map-display line
is bound nowhere in the module, so whenever at least one school type is
selected the map section ends in an error (the NameError from that line,
or the KeyError of an inconsistent cache) — it never completes a
successful display. -/
theorem map_display_always_fails :
    ∀ (sel_types : List String) (df : List Loc) (db : List (String × Rec))
      (file : Option (List (String × Rec) × ℕ)) (s : Session),
      sel_types ≠ [] →
      module_globals.contains "st_foliumst_folium" = false ∧
      (∀ s2 : Session, map_section sel_types df db file s ≠ .ok s2) := by
  intro sel df db file s hsel
  refine ⟨by decide, ?_⟩
  intro s2 h
  have hne : sel.isEmpty = false := by
    cases sel with
    | nil => exact absurd rfl hsel
    | cons a t => rfl
  simp only [map_section, hne, Bool.false_eq_true, if_false] at h
  cases hg : getOrBuild df db file s with
  | error e =>
      rw [hg] at h
      exact Except.noConfusion h
  | ok p =>
      rw [hg] at h
      rw [show module_globals.contains "st_foliumst_folium" = false from by decide] at h
      simp at h

theorem map_display_always_fails_witness :
    module_globals.contains "st_foliumst_folium" = false ∧
    map_section ["Gymnasium"] [] [] none ⟨none, none⟩ ≠ .ok ⟨none, none⟩ := by
  have h := map_display_always_fails ["Gymnasium"] [] [] none ⟨none, none⟩ (by decide)
  exact ⟨h.1, h.2 ⟨none, none⟩⟩
